import Mathlib

/-!
Verification development for the hills replicated document store.

The development shallowly embeds the typed-tree layer (`src/hills/src/db.rs`),
the common hot-sync record application (`src/hills/src/sync_common.rs`), the
relay gate for hot-sync events (`src/hills/src/sync_server.rs`), the key pool
(`src/hills/src/key_pool.rs`), and the schema-reflection AST with its
compatibility predicate (`src/hills_base/src/simple_ast.rs`,
`src/hills_base/src/evolution_check.rs`).

The sled key/value engine is modelled as an association list from keys to
records; machine integers (`u32`) are modelled as `Nat` (none of the verified
paths exercise wrap-around); byte strings are `List Nat`; the rkyv codec is an
abstract encode/decode pair supplied by the caller, mirroring its out-of-scope
status in the spec.
-/

namespace Hills

/-- Tree key `(id, revision)`, from `hills_base/src/generic_key.rs`. -/
structure GenericKey where
  id : Nat
  revision : Nat
deriving DecidableEq, Repr

/-- `GenericKey::previous_revision`: defined iff `revision > 0`. -/
def GenericKey.previous_revision (k : GenericKey) : Option GenericKey :=
  if k.revision > 0 then some ⟨k.id, k.revision - 1⟩ else none

/-- Schema version `(major, minor)`, from `hills_base/src/simple_version.rs`. -/
structure SimpleVersion where
  major : Nat
  minor : Nat
deriving DecidableEq, Repr

/-- `Ord for SimpleVersion`: major first, then minor. -/
def SimpleVersion.cmp (a b : SimpleVersion) : Ordering :=
  if a.major > b.major then .gt
  else if a.major < b.major then .lt
  else compare a.minor b.minor

/-- `SimpleVersion::rkyv_version()`. -/
def SimpleVersion.rkyvVersion : SimpleVersion := ⟨0, 7⟩

/-- Modelled from the spec: the `Version` enum of the current record module is
not under `src/` (the checked-in `record.rs` is an earlier generation); spec §3
gives `Version ∈ {NonVersioned, Draft(u32), Released(u32)}`, matching every
constructor used by `db.rs`. -/
inductive Version where
  | NonVersioned : Version
  | Draft : Nat → Version
  | Released : Nat → Version
deriving DecidableEq, Repr

/-- `matches!(v, Version::Released(_))`. -/
def Version.isReleased : Version → Bool
  | .Released _ => true
  | _ => false

/-- Modelled from the spec: the `RecordMeta` struct is not under `src/`; spec §3
lists its fields, and `db.rs` constructs all of them. The 16-byte node UUID is
modelled as `Nat`, timestamps as `Nat` (UTC milliseconds). -/
structure RecordMeta where
  key : GenericKey
  version : Version
  modified_on : Nat
  modified_by : String
  modified : Nat
  created : Nat
  rkyv_version : SimpleVersion
deriving DecidableEq, Repr

/-- Modelled from the spec: the record envelope of spec §3; `db.rs` and
`sync_common.rs` construct exactly these five fields. `data` is the opaque
serialized payload. -/
structure Record where
  meta_iteration : Nat
  meta : RecordMeta
  data_iteration : Nat
  data : List Nat
  data_evolution : SimpleVersion
deriving DecidableEq, Repr

/-! Association-list model of a sled tree: `get`, `insert` (overwrite), and
`remove`. Keys are unique in every store the operations produce. -/

/-- `sled::Tree::get`. -/
def alookup {α β : Type} [DecidableEq α] : List (α × β) → α → Option β
  | [], _ => none
  | (a, b) :: rest, x => if a = x then some b else alookup rest x

/-- `sled::Tree::insert` (set a key, overwriting any previous value). -/
def ainsert {α β : Type} [DecidableEq α] : List (α × β) → α → β → List (α × β)
  | [], k, v => [(k, v)]
  | (a, b) :: rest, k, v =>
    if a = k then (k, v) :: rest else (a, b) :: ainsert rest k v

/-- `sled::Tree::remove`. -/
def aremove {α β : Type} [DecidableEq α] : List (α × β) → α → List (α × β)
  | [], _ => []
  | (a, b) :: rest, k =>
    if a = k then aremove rest k else (a, b) :: aremove rest k

theorem alookup_ainsert_self {α β : Type} [DecidableEq α]
    (s : List (α × β)) (k : α) (v : β) : alookup (ainsert s k v) k = some v := by
  induction s with
  | nil => simp [ainsert, alookup]
  | cons hd tl ih =>
    obtain ⟨a, b⟩ := hd
    by_cases h : a = k
    · simp [ainsert, h, alookup]
    · simp [ainsert, h, alookup, ih]

theorem alookup_ainsert_ne {α β : Type} [DecidableEq α]
    (s : List (α × β)) (k k' : α) (v : β) (h : k ≠ k') :
    alookup (ainsert s k v) k' = alookup s k' := by
  induction s with
  | nil => simp [ainsert, alookup, h]
  | cons hd tl ih =>
    obtain ⟨a, b⟩ := hd
    by_cases ha : a = k
    · subst ha
      simp [ainsert, alookup, h]
    · simp [ainsert, ha, alookup, ih]

theorem alookup_aremove_self {α β : Type} [DecidableEq α]
    (s : List (α × β)) (k : α) : alookup (aremove s k) k = none := by
  induction s with
  | nil => simp [aremove, alookup]
  | cons hd tl ih =>
    obtain ⟨a, b⟩ := hd
    by_cases h : a = k
    · simp [aremove, h, ih]
    · simp [aremove, h, alookup, ih]

/-- The record portion of one sled user tree (the reserved `_key_pool` entry is
modelled separately as the pool field of the tree state). -/
abbrev Store := List (GenericKey × Record)

/-! The key pool, from `src/hills/src/key_pool.rs`. -/

/-- `KeyPool`: a sequence of `[start, end)` id ranges. -/
structure KeyPool where
  ranges : List (Nat × Nat)
deriving DecidableEq, Repr

/-- `KeyPool::get`, returned together with the mutated pool: take
`ranges[0].start`; drop the range when `start + 1 >= end`, else advance it. -/
def KeyPool.get : KeyPool → Option (Nat × KeyPool)
  | ⟨[]⟩ => none
  | ⟨(s, e) :: rest⟩ =>
    if s + 1 ≥ e then some (s, ⟨rest⟩) else some (s, ⟨(s + 1, e) :: rest⟩)

/-- Modelled from the spec: `RecordBorrows` is named by `db.rs` and
`sync_server.rs` but its declaration is not under `src/`; spec §4.7 gives
`tree → key → queue<uuid>`. UUIDs are modelled as `Nat`. -/
structure RecordBorrows where
  borrows : List (String × List (GenericKey × List Nat))
deriving DecidableEq, Repr

/-- The typed-tree error kind, from `db.rs` (`enum Error`); the human-readable
message payloads are dropped, keeping the variant. -/
inductive DbError where
  | Usage : DbError
  | Internal : DbError
  | RkyvCheckArchivedRoot : DbError
  | RkyvSerializeError : DbError
  | RkyvDeserializeError : DbError
  | EvolutionMismatch : DbError
  | WrongKey : DbError
  | WrongValue : DbError
  | VersioningMismatch : DbError
  | OutOfKeys : DbError
  | Mpsc : DbError
  | RecordNotFound : DbError
  | Index : DbError
deriving DecidableEq, Repr

/-- `index::Action`, from `src/hills/src/index.rs`. -/
inductive Action where
  | Insert : Action
  | Update : Action
  | Remove : Action
deriving DecidableEq, Repr

/-- The combined run of every registered indexer of one tree on one event
(`for indexer in &mut self.indexers { indexer.update(...) }`): it yields the
first error, if any, together with the indexer state reached (indexers mutate
in place, so a failing run may still have changed state). The index maps are
in-memory and typed-erased; their state is an abstract `Idx`. -/
def IdxRun (Idx : Type) : Type :=
  Idx → GenericKey → List Nat → Action → Option DbError × Idx

/-- The rkyv codec for the tree's value type `V`, abstracted: `enc` is
`to_bytes(&Evolving(value))`, `dec` the checked deserialization, `evolution`
is `<V as TreeRoot>::evolution()`. -/
structure Codec (Val : Type) where
  enc : Val → List Nat
  dec : List Nat → Option Val
  evolution : SimpleVersion

/-- The state a `TypedTree<K, V>` operation touches: the record entries and the
reserved `_key_pool` entry of its sled tree, the tree's versioning flag and
name, this node's UUID and username, the shared check-out mirror, the
registered indexers' in-memory state, and whether the bounded command channel
to the sync worker still has a live receiver — `cmd_tx.blocking_send` fails
exactly when it does not, and every mutation maps that failure to
`Error::Mpsc` after its store write. -/
structure TreeState (Idx : Type) where
  store : Store
  pool : Option KeyPool
  versioning : Bool
  tree_name : String
  uuid : Nat
  username : String
  borrows : RecordBorrows
  cmd_tx_open : Bool
  idx : Idx

/-- `TypedTree::is_checked_out`: the head of the key's queue in the local
borrows mirror is this node's UUID. -/
def TreeState.is_checked_out {Idx : Type} (st : TreeState Idx) (key : GenericKey) : Bool :=
  match alookup st.borrows.borrows st.tree_name with
  | some borrowed_keys =>
    match alookup borrowed_keys key with
    | some queue => queue.head? = some st.uuid
    | none => false
  | none => false

/-- `TypedTree::pool_get_key`: consume the next id from the `_key_pool` entry
under a transaction; absent or empty pool fails with `OutOfKeys` (and writes
nothing), otherwise the consumed pool is written back and `(id, 0)` returned. -/
def TreeState.pool_get_key {Idx : Type} (st : TreeState Idx) :
    TreeState Idx × Except DbError GenericKey :=
  match st.pool with
  | none => (st, .error .OutOfKeys)
  | some kp =>
    match kp.get with
    | none => (st, .error .OutOfKeys)
    | some (next_key, kp') => ({ st with pool := some kp' }, .ok ⟨next_key, 0⟩)

/-- The record `TypedTree::insert` writes (`db.rs:540`): iterations 0, version
`Draft(0)` on a versioned tree and `NonVersioned` otherwise, both timestamps
set to now. -/
def insertRecord {Idx Val : Type} (c : Codec Val) (now : Nat) (st1 : TreeState Idx)
    (generic_key : GenericKey) (value : Val) : Record :=
  { meta_iteration := 0
    meta :=
      { key := generic_key
        version := if st1.versioning then Version.Draft 0 else Version.NonVersioned
        modified_on := st1.uuid, modified_by := st1.username, modified := now
        created := now, rkyv_version := SimpleVersion.rkyvVersion }
    data_iteration := 0, data := c.enc value, data_evolution := c.evolution }

/-- `TypedTree::insert` (`db.rs:514`): draw a key from the pool, reject a
duplicate, serialize, run indexers with `Insert` (any error aborts), then write
the record with iterations 0 and version `Draft(0)` / `NonVersioned`. The
command send to the sync worker follows the write: with a closed channel the
call returns `Err(Mpsc)` with the record already inserted and the pool key
consumed (`db.rs:566`). The non-fatal user-notification `try_send` (only a
logged warning) is elided. -/
def TreeState.insert {Idx Val : Type} (c : Codec Val) (runIdx : IdxRun Idx)
    (now : Nat) (st : TreeState Idx) (value : Val) :
    TreeState Idx × Except DbError GenericKey :=
  match st.pool_get_key with
  | (st1, .error e) => (st1, .error e)
  | (st1, .ok generic_key) =>
    if (alookup st1.store generic_key).isSome then (st1, .error .Internal)
    else
      match runIdx st1.idx generic_key (c.enc value) .Insert with
      | (some e, idx') => ({ st1 with idx := idx' }, .error e)
      | (none, idx') =>
        let st2 := { st1 with
          store := ainsert st1.store generic_key (insertRecord c now st1 generic_key value)
          idx := idx' }
        if st1.cmd_tx_open then (st2, .ok generic_key) else (st2, .error .Mpsc)

/-- The previous-revision gate of `TypedTree::update` (`db.rs:598`): when the
key has a previous revision, it must be present (`Internal` otherwise) and is
rejected with `VersioningMismatch` exactly when its version is `Draft(0)`. -/
def TreeState.prevRevisionGate {Idx : Type} (st : TreeState Idx) (key : GenericKey) :
    Except DbError Unit :=
  match key.previous_revision with
  | none => .ok ()
  | some previous =>
    match alookup st.store previous with
    | none => .error .Internal
    | some previous_record =>
      if previous_record.meta.version = Version.Draft 0 then .error .VersioningMismatch
      else .ok ()

/-- The record `TypedTree::update` writes (`db.rs:644`): both iterations of
the replaced record incremented, version `Draft(0)` / `NonVersioned`, the
original `created` timestamp preserved, `modified` refreshed. -/
def updateRecord {Idx Val : Type} (c : Codec Val) (now : Nat) (st : TreeState Idx)
    (key : GenericKey) (replacing : Record) (value : Val) : Record :=
  { meta_iteration := replacing.meta_iteration + 1
    meta :=
      { key := key
        version := if st.versioning then Version.Draft 0 else Version.NonVersioned
        modified_on := st.uuid, modified_by := st.username, modified := now
        created := replacing.meta.created, rkyv_version := SimpleVersion.rkyvVersion }
    data_iteration := replacing.data_iteration + 1
    data := c.enc value, data_evolution := c.evolution }

/-- The replacement step of `TypedTree::update` (`db.rs:618`): the record must
already exist (`Usage` otherwise), a `Released` record on a versioned tree is
immutable, indexers run with `Update` (any error aborts), then the record is
rewritten with both iterations incremented, version `Draft(0)` /
`NonVersioned`, and the original `created` timestamp preserved. The command
send follows the write: with a closed channel the call returns `Err(Mpsc)`
with the record already rewritten (`db.rs:675`); the non-fatal notification
`try_send` is elided. -/
def TreeState.updateReplace {Idx Val : Type} (c : Codec Val) (runIdx : IdxRun Idx)
    (now : Nat) (st : TreeState Idx) (key : GenericKey) (value : Val) :
    TreeState Idx × Except DbError Unit :=
  match alookup st.store key with
  | none => (st, .error .Usage)
  | some replacing =>
    if st.versioning ∧ replacing.meta.version.isReleased then
      (st, .error .VersioningMismatch)
    else
      match runIdx st.idx key (c.enc value) .Update with
      | (some e, idx') => ({ st with idx := idx' }, .error e)
      | (none, idx') =>
        let st2 := { st with
          store := ainsert st.store key (updateRecord c now st key replacing value)
          idx := idx' }
        if st.cmd_tx_open then (st2, .ok ()) else (st2, .error .Mpsc)

/-- `TypedTree::update` (`db.rs:581`): requires the check-out, rejects a
nonzero revision on an un-versioned tree, passes the previous-revision gate,
then replaces the existing record. -/
def TreeState.update {Idx Val : Type} (c : Codec Val) (runIdx : IdxRun Idx)
    (now : Nat) (st : TreeState Idx) (key : GenericKey) (value : Val) :
    TreeState Idx × Except DbError Unit :=
  if st.is_checked_out key = false then (st, .error .Usage)
  else if st.versioning = false ∧ key.revision ≠ 0 then (st, .error .Usage)
  else
    match st.prevRevisionGate key with
    | .error e => (st, .error e)
    | .ok () => st.updateReplace c runIdx now key value

/-- `TypedTree::get` (`db.rs:696`): absent key fails with `RecordNotFound`; a
stored `data_evolution` different from the code's evolution fails with
`EvolutionMismatch`; otherwise the payload is deserialized. -/
def TreeState.get {Idx Val : Type} (c : Codec Val) (st : TreeState Idx)
    (key : GenericKey) : Except DbError Val :=
  match alookup st.store key with
  | none => .error .RecordNotFound
  | some record =>
    if record.data_evolution ≠ c.evolution then .error .EvolutionMismatch
    else
      match c.dec record.data with
      | some v => .ok v
      | none => .error .RkyvCheckArchivedRoot

/-- `TypedTree::remove` (`db.rs:750`): requires the check-out; an absent key
returns `Ok(None)`; a `Released` record cannot be removed; indexers run with
`Remove` and a failure is only logged, then the record is deleted. The command
send follows the delete: with a closed channel the call returns `Err(Mpsc)`
with the record already deleted (`db.rs:796`); the non-fatal notification
`try_send` is elided. -/
def TreeState.remove {Idx : Type} (runIdx : IdxRun Idx) (st : TreeState Idx)
    (key : GenericKey) : TreeState Idx × Except DbError (Option Unit) :=
  if st.is_checked_out key = false then (st, .error .Usage)
  else
    match alookup st.store key with
    | none => (st, .ok none)
    | some archived_record =>
      if archived_record.meta.version.isReleased then (st, .error .Usage)
      else
        let r := runIdx st.idx key archived_record.data .Remove
        let st2 := { st with store := aremove st.store key, idx := r.2 }
        if st.cmd_tx_open then (st2, .ok (some ())) else (st2, .error .Mpsc)

/-- `TypedTree::meta` (`db.rs:869`): an absent key yields `Ok(None)`, a present
one `(meta_iteration, meta, data_iteration, data_evolution)`. -/
def TreeState.metaOf {Idx : Type} (st : TreeState Idx) (key : GenericKey) :
    Except DbError (Option (Nat × RecordMeta × Nat × SimpleVersion)) :=
  match alookup st.store key with
  | none => .ok none
  | some record =>
    .ok (some (record.meta_iteration, record.meta, record.data_iteration,
      record.data_evolution))

/-! The hot-sync wire kinds (`src/hills/src/sync.rs`) and the common record
application shared by the client and the relay
(`src/hills/src/sync_common.rs::handle_incoming_record`). -/

/-- `HotSyncEventKind`, from `sync.rs`. -/
inductive HotSyncEventKind where
  | MetaChanged : RecordMeta → Nat → HotSyncEventKind
  | CreatedOrChanged : RecordMeta → Nat → List Nat → SimpleVersion → Nat → HotSyncEventKind
  | Removed : HotSyncEventKind
deriving DecidableEq, Repr

/-- `HotSyncEvent` (`sync.rs`); `source_addr` only steers relay echo-avoidance
and is elided. -/
structure HotSyncEvent where
  tree_name : String
  key : GenericKey
  kind : HotSyncEventKind
deriving DecidableEq, Repr

/-- A whole sled database of user trees, as `db.open_tree(name)` sees it. -/
abbrev SyncDb := List (String × Store)

/-- `db.open_tree(name)`: an unknown name opens as an empty tree. -/
def dbGetTree (db : SyncDb) (tree_name : String) : Store :=
  match alookup db tree_name with
  | some s => s
  | none => []

/-- Write one tree's contents back into the database. -/
def dbSetTree (db : SyncDb) (tree_name : String) (s : Store) : SyncDb :=
  ainsert db tree_name s

theorem dbGetTree_dbSetTree_self (db : SyncDb) (t : String) (s : Store) :
    dbGetTree (dbSetTree db t s) t = s := by
  simp [dbGetTree, dbSetTree, alookup_ainsert_self]

/-- `sync_common::handle_incoming_record`: apply one inbound hot-sync event to
the store and the tree's registered indexers (the relay passes no indexers:
its `runIdx` is the identity). `MetaChanged` drops when the record is absent or
the incoming meta-iteration is not newer, else rewrites meta only, calling no
indexer. `CreatedOrChanged` inserts a missing record (indexers run `Insert`),
drops unless both incoming iterations are strictly newer, else overwrites
(indexers run `Update`). `Removed` deletes a present record (indexers run
`Remove`) and drops otherwise. Indexer failures are logged, never fatal. -/
def handle_incoming_record {Idx : Type} (runIdx : IdxRun Idx) (db : SyncDb)
    (idx : Idx) (ev : HotSyncEvent) : SyncDb × Idx :=
  let db_tree := dbGetTree db ev.tree_name
  match ev.kind with
  | .CreatedOrChanged meta meta_iteration data data_evolution data_iteration =>
    match alookup db_tree ev.key with
    | none =>
      let r := runIdx idx ev.key data .Insert
      let record : Record :=
        { meta_iteration := meta_iteration, meta := meta
          data_iteration := data_iteration, data := data
          data_evolution := data_evolution }
      (dbSetTree db ev.tree_name (ainsert db_tree ev.key record), r.2)
    | some old_record =>
      if meta_iteration ≤ old_record.meta_iteration ∨
          data_iteration ≤ old_record.data_iteration then (db, idx)
      else
        let r := runIdx idx ev.key data .Update
        let record : Record :=
          { meta_iteration := meta_iteration, meta := meta
            data_iteration := data_iteration, data := data
            data_evolution := data_evolution }
        (dbSetTree db ev.tree_name (ainsert db_tree ev.key record), r.2)
  | .MetaChanged meta meta_iteration =>
    match alookup db_tree ev.key with
    | none => (db, idx)
    | some old_record =>
      if meta_iteration ≤ old_record.meta_iteration then (db, idx)
      else
        let record : Record :=
          { meta_iteration := meta_iteration, meta := meta
            data_iteration := old_record.data_iteration
            data := old_record.data
            data_evolution := old_record.data_evolution }
        (dbSetTree db ev.tree_name (ainsert db_tree ev.key record), idx)
  | .Removed =>
    match alookup db_tree ev.key with
    | some old_record =>
      let r := runIdx idx ev.key old_record.data .Remove
      (dbSetTree db ev.tree_name (aremove db_tree ev.key), r.2)
    | none => (db, idx)

/-! The relay's gate for inbound hot-sync events
(`src/hills/src/sync_server.rs::process_message`, `HotSyncEvent` arm). -/

/-- `ClientInfo`, from `sync_server.rs` (the fields the hot-sync gate reads). -/
structure ClientInfo where
  uuid : Nat
  key_ranges : List (String × List (Nat × Nat))
deriving DecidableEq, Repr

/-- `ClientInfo::owns_key`: some issued `[start, end)` range for the tree
contains the key's id. -/
def ClientInfo.owns_key (ci : ClientInfo) (tree : String) (key : GenericKey) : Bool :=
  match alookup ci.key_ranges tree with
  | some ranges => ranges.any (fun r => r.1 ≤ key.id ∧ key.id < r.2)
  | none => false

/-- The relay state the hot-sync arm touches: the record database, the
`_removed_records` tombstone tree (keyed by tree name and key), and the global
check-out queues. The relay applies records with no indexers. -/
structure ServerState where
  db : SyncDb
  removed : List (String × GenericKey)
  borrows : RecordBorrows
deriving Repr

/-- Membership in the `_removed_records` tombstone tree. -/
def tombContains : List (String × GenericKey) → String → GenericKey → Bool
  | [], _, _ => false
  | (t, k) :: rest, tree, key =>
    if t = tree ∧ k = key then true else tombContains rest tree key

/-- `borrowed_keys.remove(&key)` on the tree's queue table, if present. -/
def RecordBorrows.evict (b : RecordBorrows) (tree : String) (key : GenericKey) :
    RecordBorrows :=
  match alookup b.borrows tree with
  | some borrowed_keys => ⟨ainsert b.borrows tree (aremove borrowed_keys key)⟩
  | none => b

/-- The identity indexer run: the relay calls `handle_incoming_record` with
`indexers = None`. -/
def noIdxRun : IdxRun Unit := fun u _ _ _ => (none, u)

/-- The `HotSyncEvent` arm of the relay's `process_message`
(`sync_server.rs:439`): a `CreatedOrChanged` or `MetaChanged` event with
`meta_iteration == 0` whose key id the sender owns in none of its issued
ranges is dropped, as is one whose key is tombstoned; a `Removed` event writes
the tombstone and evicts the key's check-out queue. Surviving events are
applied through the common handler and broadcast to the peers (returned as the
second component). -/
def serverHotSync (st : ServerState) (client_info : ClientInfo)
    (ev : HotSyncEvent) : ServerState × List HotSyncEvent :=
  match ev.kind with
  | .CreatedOrChanged _ meta_iteration _ _ _ | .MetaChanged _ meta_iteration =>
    if meta_iteration = 0 ∧ client_info.owns_key ev.tree_name ev.key = false then
      (st, [])
    else if tombContains st.removed ev.tree_name ev.key then (st, [])
    else
      let r := handle_incoming_record noIdxRun st.db () ev
      ({ st with db := r.1 }, [ev])
  | .Removed =>
    let removed' := (ev.tree_name, ev.key) :: st.removed
    let borrows' := st.borrows.evict ev.tree_name ev.key
    let r := handle_incoming_record noIdxRun st.db () ev
    ({ db := r.1, removed := removed', borrows := borrows' }, [ev])

/-! The reflected type AST (`src/hills_base/src/simple_ast.rs`), its derived
equality, the separate backwards-compatibility predicate
(`src/hills_base/src/evolution_check.rs`), and the typed-tree open path that
compares the code's reflected collection with the stored one
(`src/hills/src/db.rs::open_cold_tree`). -/

/-- `StructField { ident, ty }`; `simple_ast.rs` derives `PartialEq`, so both
fields take part in equality. -/
structure StructField where
  ident : String
  ty : String
deriving DecidableEq, Repr

/-- `StructInfo { fields }`. -/
structure StructInfo where
  fields : List StructField
deriving DecidableEq, Repr

/-- `EnumFields`, from `simple_ast.rs`. -/
inductive EnumFields where
  | Named : List StructField → EnumFields
  | Unnamed : List String → EnumFields
  | Unit : EnumFields
deriving DecidableEq, Repr

/-- `EnumVariant { ident, fields }`; derived `PartialEq` includes `ident`. -/
structure EnumVariant where
  ident : String
  fields : EnumFields
deriving DecidableEq, Repr

/-- `EnumInfo { variants }`. -/
structure EnumInfo where
  variants : List EnumVariant
deriving DecidableEq, Repr

/-- `TypeInfo`, from `simple_ast.rs`. -/
inductive TypeInfo where
  | Struct : StructInfo → TypeInfo
  | Enum : EnumInfo → TypeInfo
deriving DecidableEq, Repr

/-- `TypeCollection { root, refs }`; `refs` is a `HashMap<String, TypeInfo>`,
modelled as an association list with unique keys. -/
structure TypeCollection where
  root : String
  refs : List (String × TypeInfo)
deriving DecidableEq, Repr

/-- `HashMap` equality as the derived `PartialEq` uses it: equal size and every
entry of the left map present with an equal value in the right one. -/
def refsEq (a b : List (String × TypeInfo)) : Bool :=
  a.length = b.length && a.all (fun kv => alookup b kv.1 = some kv.2)

/-- The derived `PartialEq for TypeCollection` of `simple_ast.rs`: `root` and
`refs` both compared, descriptor equality structural — field and variant
idents included. -/
def tcEq (a b : TypeCollection) : Bool :=
  a.root = b.root && refsEq a.refs b.refs

/-- `evolution_check.rs::is_enum_fields_compatible`: shapes must match;
named-field types compare pairwise with idents ignored. -/
def is_enum_fields_compatible : EnumFields → EnumFields → Bool
  | .Named prev_named, next_fields =>
    match next_fields with
    | .Named next_named =>
      prev_named.length = next_named.length &&
        (prev_named.zip next_named).all (fun p => p.1.ty = p.2.ty)
    | _ => false
  | .Unnamed prev_unnamed, next_fields =>
    match next_fields with
    | .Unnamed next_unnamed => prev_unnamed = next_unnamed
    | _ => false
  | .Unit, next_fields => next_fields = .Unit

/-- `evolution_check.rs::is_backwards_compatible`: renaming struct fields and
enum variants is allowed, adding struct fields is allowed, changing types or
the variant count is not. -/
def is_backwards_compatible (previous next : TypeCollection) : Bool :=
  match alookup previous.refs previous.root, alookup next.refs previous.root with
  | some (.Struct prev_si), some (.Struct next_si) =>
    if prev_si.fields.length > next_si.fields.length then false
    else (prev_si.fields.zip next_si.fields).all (fun p => p.1.ty = p.2.ty)
  | some (.Struct _), some (.Enum _) => false
  | some (.Enum prev_ei), some (.Enum next_ei) =>
    if prev_ei.variants.length ≠ next_ei.variants.length then false
    else (prev_ei.variants.zip next_ei.variants).all
      (fun p => is_enum_fields_compatible p.1.fields p.2.fields)
  | some (.Enum _), some (.Struct _) => false
  | _, _ => false

/-- `TreeDescriptor`, from `src/hills/src/tree.rs`. -/
structure TreeDescriptor where
  evolutions : List (SimpleVersion × TypeCollection)
  versioning : Bool
deriving DecidableEq, Repr

/-- `descriptor.evolutions.keys().max().unwrap_or(SimpleVersion::new(0, 0))`. -/
def maxEvolution (d : TreeDescriptor) : SimpleVersion :=
  d.evolutions.foldl (fun acc kv => if acc.cmp kv.1 = .lt then kv.1 else acc) ⟨0, 0⟩

/-- The descriptor-checking portion of `HillsClient::open_cold_tree`
(`db.rs:361`): with no stored descriptor a fresh one is written; otherwise the
versioning flag must match, and when the code's evolution equals the stored
maximum and that evolution's collection is on file, the reflected collection
must compare equal to it, else `EvolutionMismatch`. An older or newer code
evolution opens without this comparison. -/
def open_descriptor_check (descriptor : Option TreeDescriptor) (versioning : Bool)
    (evolution : SimpleVersion) (current_tc : TypeCollection) : Except DbError Unit :=
  match descriptor with
  | none => .ok ()
  | some d =>
    if versioning ≠ d.versioning then .error .VersioningMismatch
    else
      match evolution.cmp (maxEvolution d) with
      | .lt => .ok ()
      | .eq =>
        match alookup d.evolutions evolution with
        | some known_tc =>
          if tcEq current_tc known_tc then .ok () else .error .EvolutionMismatch
        | none => .ok ()
      | .gt => .ok ()

/-! Concrete fixtures used by closed evaluations and witnesses. -/

/-- A concrete codec: values are `Nat`, a value encodes to the singleton byte
list holding it. -/
def natCodec : Codec Nat :=
  { enc := fun v => [v], dec := fun l => l.head?, evolution := ⟨0, 0⟩ }

/-- An indexer run that rejects every action. -/
def badIdxRun : IdxRun Unit := fun u _ _ _ => (some .Index, u)

/-- A record metadata block with the given key and version. -/
def mkMeta (key : GenericKey) (version : Version) : RecordMeta :=
  { key := key, version := version, modified_on := 42, modified_by := "u"
    modified := 0, created := 0, rkyv_version := SimpleVersion.rkyvVersion }

/-- A record with the given key, version and payload, iterations zero. -/
def mkRecord (key : GenericKey) (version : Version) (data : List Nat) : Record :=
  { meta_iteration := 0, meta := mkMeta key version, data_iteration := 0
    data := data, data_evolution := ⟨0, 0⟩ }

/-- Versioned tree holding revisions `(1, 0)` (a `Draft(1)` record — released
never, yet not `Draft(0)`) and `(1, 1)` (a `Draft(0)` record), with key
`(1, 1)` checked out by this node (UUID 42). -/
def stDraft1 : TreeState Unit :=
  { store := [(⟨1, 0⟩, mkRecord ⟨1, 0⟩ (Version.Draft 1) [9]),
      (⟨1, 1⟩, mkRecord ⟨1, 1⟩ (Version.Draft 0) [9])]
    pool := none, versioning := true, tree_name := "t", uuid := 42
    username := "u", borrows := ⟨[("t", [(⟨1, 1⟩, [42])])]⟩, cmd_tx_open := true, idx := () }

/-- C1. The spec requires that a new revision `r > 0` can only be written when
revision `r - 1` exists and is `Released`; the code's gate (`db.rs:612`)
instead rejects only a previous revision in state `Draft(0)`, as this
evaluation shows: with the previous revision `(1, 0)` stored in state
`Draft(1)` — not `Released` — `update` of `(1, 1)` succeeds, contradicting the
claim and the code's own error message ("Cannot release a new revision if
previous one is not in Released state"). -/
theorem update_succeeds_on_unreleased_draft1_previous :
    alookup stDraft1.store ⟨1, 0⟩ = some (mkRecord ⟨1, 0⟩ (Version.Draft 1) [9]) ∧
    (mkRecord ⟨1, 0⟩ (Version.Draft 1) [9]).meta.version.isReleased = false ∧
    stDraft1.versioning = true ∧
    (TreeState.update natCodec noIdxRun 7 stDraft1 ⟨1, 1⟩ 5).2 = Except.ok () :=
  ⟨rfl, rfl, rfl, rfl⟩

/-- C2. When this node's UUID is not at position 0 of the key's check-out
queue in the local borrows mirror (including an empty or absent queue —
exactly `is_checked_out = false`), both `update` and `remove` fail with the
`Usage` error and return the state untouched, so the stored record is
unchanged. -/
theorem update_remove_require_checkout_head {Idx Val : Type} (c : Codec Val)
    (runIdx : IdxRun Idx) (now : Nat) (st : TreeState Idx) (key : GenericKey)
    (value : Val) (h : st.is_checked_out key = false) :
    st.update c runIdx now key value = (st, .error .Usage) ∧
    st.remove runIdx key = (st, .error .Usage) := by
  constructor
  · simp [TreeState.update, h]
  · simp [TreeState.remove, h]

/-- A tree with an empty store and an empty borrows mirror. -/
def stEmpty : TreeState Unit :=
  { store := [], pool := none, versioning := false, tree_name := "t", uuid := 42
    username := "u", borrows := ⟨[]⟩, cmd_tx_open := true, idx := () }

theorem update_remove_require_checkout_head_witness :
    stEmpty.is_checked_out ⟨3, 0⟩ = false ∧
    TreeState.update natCodec noIdxRun 0 stEmpty ⟨3, 0⟩ 5 = (stEmpty, .error .Usage) ∧
    TreeState.remove noIdxRun stEmpty ⟨3, 0⟩ = (stEmpty, .error .Usage) :=
  ⟨rfl,
    (update_remove_require_checkout_head natCodec noIdxRun 0 stEmpty ⟨3, 0⟩ 5 rfl).1,
    (update_remove_require_checkout_head natCodec noIdxRun 0 stEmpty ⟨3, 0⟩ 5 rfl).2⟩

/-- C9. `get` fails with `RecordNotFound` on an absent key; with
`EvolutionMismatch` when a record is stored whose `data_evolution` differs (in
either direction) from the code's evolution; and deserializes the payload only
when the evolutions are equal. -/
theorem get_error_semantics {Idx Val : Type} (c : Codec Val) (st : TreeState Idx)
    (key : GenericKey) :
    (alookup st.store key = none → st.get c key = .error .RecordNotFound) ∧
    (∀ record, alookup st.store key = some record →
      record.data_evolution ≠ c.evolution → st.get c key = .error .EvolutionMismatch) ∧
    (∀ record v, alookup st.store key = some record →
      record.data_evolution = c.evolution → c.dec record.data = some v →
      st.get c key = .ok v) := by
  refine ⟨fun h => ?_, fun record h hne => ?_, fun record v h he hd => ?_⟩
  · simp [TreeState.get, h]
  · simp [TreeState.get, h, hne]
  · simp [TreeState.get, h, he, hd]

/-- A tree storing one record under `(2, 0)` at evolution `(0, 0)` with
payload `[5]`, and one under `(2, 1)` at evolution `(1, 0)`. -/
def stGet : TreeState Unit :=
  { store := [(⟨2, 0⟩, mkRecord ⟨2, 0⟩ Version.NonVersioned [5]),
      (⟨2, 1⟩, { mkRecord ⟨2, 1⟩ Version.NonVersioned [5] with data_evolution := ⟨1, 0⟩ })]
    pool := none, versioning := false, tree_name := "t", uuid := 42
    username := "u", borrows := ⟨[]⟩, cmd_tx_open := true, idx := () }

theorem get_error_semantics_witness :
    TreeState.get natCodec stGet ⟨9, 9⟩ = .error .RecordNotFound ∧
    TreeState.get natCodec stGet ⟨2, 1⟩ = .error .EvolutionMismatch ∧
    TreeState.get natCodec stGet ⟨2, 0⟩ = .ok 5 :=
  ⟨(get_error_semantics natCodec stGet ⟨9, 9⟩).1 rfl,
    (get_error_semantics natCodec stGet ⟨2, 1⟩).2.1 _ rfl (by decide),
    (get_error_semantics natCodec stGet ⟨2, 0⟩).2.2 _ 5 rfl rfl rfl⟩

/-- C10. On a key with no stored record, `meta` succeeds with `None` while
`get` on the same key fails with `RecordNotFound`: `meta` never fails merely
because the key is missing. -/
theorem meta_ok_none_on_absent_key {Idx Val : Type} (c : Codec Val)
    (st : TreeState Idx) (key : GenericKey) (h : alookup st.store key = none) :
    st.metaOf key = .ok none ∧ st.get c key = .error .RecordNotFound := by
  constructor
  · simp [TreeState.metaOf, h]
  · simp [TreeState.get, h]

theorem meta_ok_none_on_absent_key_witness :
    TreeState.metaOf stGet ⟨9, 9⟩ = .ok none ∧
    TreeState.get natCodec stGet ⟨9, 9⟩ = .error .RecordNotFound :=
  meta_ok_none_on_absent_key natCodec stGet ⟨9, 9⟩ rfl

theorem pool_get_key_frame {Idx : Type} (st : TreeState Idx) :
    (st.pool_get_key).1.store = st.store ∧
    (st.pool_get_key).1.versioning = st.versioning ∧
    (st.pool_get_key).1.idx = st.idx := by
  unfold TreeState.pool_get_key
  split
  · exact ⟨rfl, rfl, rfl⟩
  · split
    · exact ⟨rfl, rfl, rfl⟩
    · exact ⟨rfl, rfl, rfl⟩

theorem pool_get_key_ok_revision {Idx : Type} (st st1 : TreeState Idx)
    (gk : GenericKey) (h : st.pool_get_key = (st1, .ok gk)) : gk.revision = 0 := by
  unfold TreeState.pool_get_key at h
  split at h
  · have h2 : Except.error (α := GenericKey) DbError.OutOfKeys = Except.ok gk :=
      congrArg Prod.snd h
    simp at h2
  · split at h
    · have h2 : Except.error (α := GenericKey) DbError.OutOfKeys = Except.ok gk :=
        congrArg Prod.snd h
      simp at h2
    · rename_i next_key kp' heq
      have h2 : Except.ok (ε := DbError) (⟨next_key, 0⟩ : GenericKey) = Except.ok gk :=
        congrArg Prod.snd h
      injection h2 with h3
      rw [← h3]

/-- C3. When `insert` succeeds and returns key `K`, `K.revision = 0`, the
stored record carries `meta_iteration = 0`, `data_iteration = 0` and version
`Draft(0)` on a versioned tree / `NonVersioned` otherwise, and a subsequent
`get(K)` returns a value equal to the inserted one (given that the codec
round-trips the value). -/
theorem insert_fresh_record {Idx Val : Type} (c : Codec Val) (runIdx : IdxRun Idx)
    (now : Nat) (st : TreeState Idx) (value : Val) (k : GenericKey)
    (hins : (st.insert c runIdx now value).2 = .ok k)
    (hrt : c.dec (c.enc value) = some value) :
    k.revision = 0 ∧
    ∃ record, alookup (st.insert c runIdx now value).1.store k = some record ∧
      record.meta_iteration = 0 ∧ record.data_iteration = 0 ∧
      record.meta.version =
        (if st.versioning then Version.Draft 0 else Version.NonVersioned) ∧
      (st.insert c runIdx now value).1.get c k = .ok value := by
  rcases hp : st.pool_get_key with ⟨st1, r⟩
  have hframe := pool_get_key_frame st
  rw [hp] at hframe
  obtain ⟨hstore1, hvers1, -⟩ := hframe
  replace hstore1 : st1.store = st.store := hstore1
  replace hvers1 : st1.versioning = st.versioning := hvers1
  cases r with
  | error e => simp [TreeState.insert, hp] at hins
  | ok gk =>
    have hrev : gk.revision = 0 := pool_get_key_ok_revision st st1 gk hp
    by_cases hdup : (alookup st1.store gk).isSome
    · simp [TreeState.insert, hp, hdup] at hins
    · rcases hri : runIdx st1.idx gk (c.enc value) .Insert with ⟨ri, idx'⟩
      rw [Bool.not_eq_true] at hdup
      cases ri with
      | some e => simp [TreeState.insert, hp, hdup, hri] at hins
      | none =>
        by_cases hopen : st1.cmd_tx_open = true
        · have hres : st.insert c runIdx now value =
              ({ st1 with
                  store := ainsert st1.store gk (insertRecord c now st1 gk value)
                  idx := idx' },
                .ok gk) := by
            simp [TreeState.insert, hp, hdup, hri, hopen]
          have hk : gk = k := by
            rw [hres] at hins
            simpa using hins
          subst hk
          rw [hres]
          refine ⟨hrev, insertRecord c now st1 gk value, ?_, rfl, rfl, ?_, ?_⟩
          · exact alookup_ainsert_self _ _ _
          · simp [insertRecord, hvers1]
          · simp [TreeState.get, alookup_ainsert_self, insertRecord, hrt]
        · exfalso
          simp [TreeState.insert, hp, hdup, hri, hopen] at hins

/-- A tree with an empty store and the key pool holding the range `[5, 10)`. -/
def stPool : TreeState Unit :=
  { store := [], pool := some ⟨[(5, 10)]⟩, versioning := false, tree_name := "t"
    uuid := 42, username := "u", borrows := ⟨[]⟩, cmd_tx_open := true, idx := () }

theorem insert_fresh_record_witness :
    (⟨5, 0⟩ : GenericKey).revision = 0 ∧
    ∃ record,
      alookup (TreeState.insert natCodec noIdxRun 3 stPool 7).1.store ⟨5, 0⟩ = some record ∧
      record.meta_iteration = 0 ∧ record.data_iteration = 0 ∧
      record.meta.version =
        (if stPool.versioning then Version.Draft 0 else Version.NonVersioned) ∧
      (TreeState.insert natCodec noIdxRun 3 stPool 7).1.get natCodec ⟨5, 0⟩ = .ok 7 :=
  insert_fresh_record natCodec noIdxRun 3 stPool 7 ⟨5, 0⟩ rfl rfl

/-- C5. An inbound `MetaChanged` hot-sync event for a key with no stored
record is dropped (no record created); one whose incoming meta-iteration is
not strictly greater than the stored one is dropped; otherwise the record is
rewritten with the new meta and meta-iteration while its data bytes,
data-iteration and data-evolution stay as stored, and the indexer state is
untouched. -/
theorem meta_changed_handler_spec {Idx : Type} (runIdx : IdxRun Idx) (db : SyncDb)
    (idx : Idx) (t : String) (k : GenericKey) (meta : RecordMeta) (mit : Nat) :
    (alookup (dbGetTree db t) k = none →
      handle_incoming_record runIdx db idx ⟨t, k, .MetaChanged meta mit⟩ = (db, idx)) ∧
    (∀ old, alookup (dbGetTree db t) k = some old → mit ≤ old.meta_iteration →
      handle_incoming_record runIdx db idx ⟨t, k, .MetaChanged meta mit⟩ = (db, idx)) ∧
    (∀ old, alookup (dbGetTree db t) k = some old → old.meta_iteration < mit →
      handle_incoming_record runIdx db idx ⟨t, k, .MetaChanged meta mit⟩ =
        (dbSetTree db t (ainsert (dbGetTree db t) k
          { meta_iteration := mit, meta := meta
            data_iteration := old.data_iteration, data := old.data
            data_evolution := old.data_evolution }), idx)) := by
  refine ⟨fun h => ?_, fun old h hle => ?_, fun old h hlt => ?_⟩
  · simp [handle_incoming_record, h]
  · simp [handle_incoming_record, h, hle]
  · simp [handle_incoming_record, h, Nat.not_le.mpr hlt]

/-- A database holding one tree `"t"` with a single record under `(4, 0)` at
meta-iteration 3 and data-iteration 5. -/
def dbMeta : SyncDb :=
  [("t", [(⟨4, 0⟩, { mkRecord ⟨4, 0⟩ Version.NonVersioned [7] with
    meta_iteration := 3, data_iteration := 5 })])]

theorem meta_changed_handler_spec_witness :
    handle_incoming_record noIdxRun dbMeta () ⟨"u", ⟨4, 0⟩,
      .MetaChanged (mkMeta ⟨4, 0⟩ Version.NonVersioned) 9⟩ = (dbMeta, ()) ∧
    handle_incoming_record noIdxRun dbMeta () ⟨"t", ⟨4, 0⟩,
      .MetaChanged (mkMeta ⟨4, 0⟩ Version.NonVersioned) 3⟩ = (dbMeta, ()) ∧
    handle_incoming_record noIdxRun dbMeta () ⟨"t", ⟨4, 0⟩,
      .MetaChanged (mkMeta ⟨4, 0⟩ (Version.Released 1)) 4⟩ =
      (dbSetTree dbMeta "t" (ainsert (dbGetTree dbMeta "t") ⟨4, 0⟩
        { meta_iteration := 4, meta := mkMeta ⟨4, 0⟩ (Version.Released 1)
          data_iteration := 5, data := [7], data_evolution := ⟨0, 0⟩ }), ()) :=
  ⟨(meta_changed_handler_spec noIdxRun dbMeta () "u" ⟨4, 0⟩
      (mkMeta ⟨4, 0⟩ Version.NonVersioned) 9).1 rfl,
    (meta_changed_handler_spec noIdxRun dbMeta () "t" ⟨4, 0⟩
      (mkMeta ⟨4, 0⟩ Version.NonVersioned) 3).2.1 _ rfl (by decide),
    (meta_changed_handler_spec noIdxRun dbMeta () "t" ⟨4, 0⟩
      (mkMeta ⟨4, 0⟩ (Version.Released 1)) 4).2.2 _ rfl (by decide)⟩

/-- C8. Applying one and the same `Removed` hot-sync event twice through the
common record-application handler leaves the store and the indexer state
exactly as applying it once: the first application deletes the record (running
indexers with `Remove`), the second finds no record and changes nothing. -/
theorem removed_event_idempotent {Idx : Type} (runIdx : IdxRun Idx) (db : SyncDb)
    (idx : Idx) (t : String) (k : GenericKey) :
    handle_incoming_record runIdx
      (handle_incoming_record runIdx db idx ⟨t, k, .Removed⟩).1
      (handle_incoming_record runIdx db idx ⟨t, k, .Removed⟩).2
      ⟨t, k, .Removed⟩ =
    handle_incoming_record runIdx db idx ⟨t, k, .Removed⟩ := by
  cases h : alookup (dbGetTree db t) k with
  | none => simp [handle_incoming_record, h]
  | some old =>
    have h1 : handle_incoming_record runIdx db idx ⟨t, k, .Removed⟩ =
        (dbSetTree db t (aremove (dbGetTree db t) k), (runIdx idx k old.data .Remove).2) := by
      simp [handle_incoming_record, h]
    rw [h1]
    simp [handle_incoming_record, dbGetTree_dbSetTree_self, alookup_aremove_self]

/-- The `meta_iteration` a hot-sync event kind carries, when it carries one. -/
def HotSyncEventKind.metaIterationOf : HotSyncEventKind → Option Nat
  | .MetaChanged _ meta_iteration => some meta_iteration
  | .CreatedOrChanged _ meta_iteration _ _ _ => some meta_iteration
  | .Removed => none

/-- C6. A hot-sync event reaching the relay whose kind carries
`meta_iteration == 0` (a first-ever create) from a client none of whose issued
key ranges for that tree contains the key's id is dropped: the record store,
tombstone set and check-out queues are unchanged and nothing is broadcast. -/
theorem relay_drops_unowned_first_create (st : ServerState) (ci : ClientInfo)
    (ev : HotSyncEvent) (h0 : ev.kind.metaIterationOf = some 0)
    (hown : ci.owns_key ev.tree_name ev.key = false) :
    serverHotSync st ci ev = (st, []) := by
  obtain ⟨t, k, kind⟩ := ev
  cases kind with
  | MetaChanged meta meta_iteration =>
    have hz : meta_iteration = 0 := by
      simpa [HotSyncEventKind.metaIterationOf] using h0
    subst hz
    simp only [HotSyncEvent.tree_name, HotSyncEvent.key] at hown
    simp [serverHotSync, hown]
  | CreatedOrChanged meta meta_iteration data devo dit =>
    have hz : meta_iteration = 0 := by
      simpa [HotSyncEventKind.metaIterationOf] using h0
    subst hz
    simp only [HotSyncEvent.tree_name, HotSyncEvent.key] at hown
    simp [serverHotSync, hown]
  | Removed => simp [HotSyncEventKind.metaIterationOf] at h0

/-- A relay with an empty store, an empty tombstone set, empty queues. -/
def stSrv : ServerState := { db := [], removed := [], borrows := ⟨[]⟩ }

/-- A client owning range `[0, 10)` of tree `"t"` and nothing else. -/
def ciSrv : ClientInfo := { uuid := 1, key_ranges := [("t", [(0, 10)])] }

theorem relay_drops_unowned_first_create_witness :
    serverHotSync stSrv ciSrv ⟨"t", ⟨42, 0⟩,
      .CreatedOrChanged (mkMeta ⟨42, 0⟩ Version.NonVersioned) 0 [1] ⟨0, 0⟩ 0⟩ =
      (stSrv, []) :=
  relay_drops_unowned_first_create stSrv ciSrv _ rfl (by decide)

/-- A versioned tree holding one `Draft(0)` record under `(2, 0)`, checked out
by this node (UUID 42). -/
def stCheckedOut : TreeState Unit :=
  { store := [(⟨2, 0⟩, mkRecord ⟨2, 0⟩ (Version.Draft 0) [9])]
    pool := some ⟨[(5, 10)]⟩, versioning := true, tree_name := "t", uuid := 42
    username := "u", borrows := ⟨[("t", [(⟨2, 0⟩, [42])])]⟩, cmd_tx_open := true, idx := () }

/-- C4 counterexample. With every indexer rejecting, `remove` of the stored,
checked-out, non-released record `(2, 0)` still succeeds and deletes the
record (`db.rs:770` logs the indexer failure and proceeds), refuting "an
indexer error is always fatal to the operation" and "the operation fails
without side effects". -/
theorem remove_succeeds_despite_indexer_error :
    (badIdxRun stCheckedOut.idx ⟨2, 0⟩ [9] .Remove).1 = some DbError.Index ∧
    (TreeState.remove badIdxRun stCheckedOut ⟨2, 0⟩).2 = .ok (some ()) ∧
    alookup (TreeState.remove badIdxRun stCheckedOut ⟨2, 0⟩).1.store ⟨2, 0⟩ = none :=
  ⟨rfl, rfl, rfl⟩

/-- A versioned tree whose pool holds `[5, 10)`, storing a `Draft(0)` record
under `(2, 0)` that is checked out by this node; its indexer rejects. -/
def stBadIdx : TreeState Unit :=
  { store := [(⟨2, 0⟩, mkRecord ⟨2, 0⟩ (Version.Draft 0) [9])]
    pool := some ⟨[(5, 10)]⟩, versioning := true, tree_name := "t", uuid := 42
    username := "u", borrows := ⟨[("t", [(⟨2, 0⟩, [42])])]⟩, cmd_tx_open := true, idx := () }

/-- An un-versioned tree with key `(2, 1)` checked out by this node. -/
def stUnv : TreeState Unit :=
  { store := [], pool := none, versioning := false, tree_name := "t", uuid := 42
    username := "u", borrows := ⟨[("t", [(⟨2, 1⟩, [42])])]⟩, cmd_tx_open := true, idx := () }

/-- A versioned tree with key `(1, 1)` checked out by this node and an empty
store, so the previous revision `(1, 0)` is absent. -/
def stPrevMissing : TreeState Unit :=
  { store := [], pool := none, versioning := true, tree_name := "t", uuid := 42
    username := "u", borrows := ⟨[("t", [(⟨1, 1⟩, [42])])]⟩, cmd_tx_open := true, idx := () }

/-- A versioned tree storing a `Released(0)` record under `(2, 0)`, checked
out by this node. -/
def stReleasedRec : TreeState Unit :=
  { store := [(⟨2, 0⟩, mkRecord ⟨2, 0⟩ (Version.Released 0) [9])]
    pool := none, versioning := true, tree_name := "t", uuid := 42
    username := "u", borrows := ⟨[("t", [(⟨2, 0⟩, [42])])]⟩, cmd_tx_open := true, idx := () }

/-- C4, amended. A failed check-out precondition makes `update` and `remove`
return `Usage` with the state untouched; each versioning rejection — un-versioned
tree with nonzero revision, previous-revision gate failure, replacing or
removing a `Released` record — returns its error with the state untouched; an
indexer error aborts `insert` and `update` before any record is written (the
record entries are unchanged, though `insert`'s key drawn from the pool stays
consumed); in `remove` an indexer error is only logged and the removal
proceeds, deleting the record — succeeding outright whenever the command
channel accepts the change. (The post-write command send can still fail with
`Mpsc` after a successful write, which is why no blanket "every error leaves
the store unchanged" holds.) -/
theorem mutation_failure_discipline {Idx Val : Type} (c : Codec Val)
    (runIdx : IdxRun Idx) (now : Nat) (st : TreeState Idx) (key : GenericKey)
    (value : Val) :
    (st.is_checked_out key = false →
      st.update c runIdx now key value = (st, .error .Usage) ∧
      st.remove runIdx key = (st, .error .Usage)) ∧
    (st.is_checked_out key = true →
      ((st.versioning = false ∧ key.revision ≠ 0) →
        st.update c runIdx now key value = (st, .error .Usage)) ∧
      (∀ e, ¬(st.versioning = false ∧ key.revision ≠ 0) →
        st.prevRevisionGate key = .error e →
        st.update c runIdx now key value = (st, .error e)) ∧
      (∀ replacing, ¬(st.versioning = false ∧ key.revision ≠ 0) →
        st.prevRevisionGate key = .ok () →
        alookup st.store key = some replacing →
        st.versioning = true → replacing.meta.version.isReleased = true →
        st.update c runIdx now key value = (st, .error .VersioningMismatch)) ∧
      (∀ record, alookup st.store key = some record →
        record.meta.version.isReleased = true →
        st.remove runIdx key = (st, .error .Usage)) ∧
      (∀ record, alookup st.store key = some record →
        record.meta.version.isReleased = false →
        alookup (st.remove runIdx key).1.store key = none ∧
        (st.cmd_tx_open = true → (st.remove runIdx key).2 = .ok (some ())))) ∧
    (∀ st1 gk e, st.pool_get_key = (st1, .ok gk) → alookup st1.store gk = none →
      (runIdx st1.idx gk (c.enc value) .Insert).1 = some e →
      (st.insert c runIdx now value).2 = .error e ∧
      (st.insert c runIdx now value).1.store = st.store ∧
      (st.insert c runIdx now value).1.pool = st1.pool) ∧
    (st.is_checked_out key = true → st.prevRevisionGate key = .ok () →
      ∀ replacing e, alookup st.store key = some replacing →
      ¬(st.versioning = true ∧ replacing.meta.version.isReleased = true) →
      ¬(st.versioning = false ∧ key.revision ≠ 0) →
      (runIdx st.idx key (c.enc value) .Update).1 = some e →
      st.update c runIdx now key value =
        ({ st with idx := (runIdx st.idx key (c.enc value) .Update).2 },
          .error e)) := by
  refine ⟨fun hco => ⟨?_, ?_⟩,
    fun hco => ⟨fun h2 => ?_, fun e hnv hg => ?_,
      fun replacing hnv hg hl hv hrel => ?_, fun record hl hrel => ?_,
      fun record hl hrel => ?_⟩,
    fun st1 gk e hp hdup hri => ?_,
    fun hco hg replacing e hl hrel hv hri => ?_⟩
  · simp [TreeState.update, hco]
  · simp [TreeState.remove, hco]
  · simp [TreeState.update, hco, h2]
  · simp [TreeState.update, hco, hnv, hg]
  · simp [TreeState.update, TreeState.updateReplace, hco, hnv, hg, hl, hv, hrel]
  · simp [TreeState.remove, hco, hl, hrel]
  · by_cases hopen : st.cmd_tx_open = true
    · exact ⟨by simp [TreeState.remove, hco, hl, hrel, hopen, alookup_aremove_self],
        fun _ => by simp [TreeState.remove, hco, hl, hrel, hopen]⟩
    · exact ⟨by simp [TreeState.remove, hco, hl, hrel, hopen, alookup_aremove_self],
        fun h => absurd h hopen⟩
  · rcases hri2 : runIdx st1.idx gk (c.enc value) .Insert with ⟨ri, idx'⟩
    rw [hri2] at hri
    simp only at hri
    subst hri
    have hdup' : (alookup st1.store gk).isSome = false := by simp [hdup]
    have hframe := pool_get_key_frame st
    rw [hp] at hframe
    have hstore1 : st1.store = st.store := hframe.1
    refine ⟨?_, ?_, ?_⟩
    · simp [TreeState.insert, hp, hdup', hri2]
    · simpa [TreeState.insert, hp, hdup', hri2] using hstore1
    · simp [TreeState.insert, hp, hdup', hri2]
  · rcases hri2 : runIdx st.idx key (c.enc value) .Update with ⟨ri, idx'⟩
    rw [hri2] at hri
    simp only at hri
    subst hri
    simp [TreeState.update, TreeState.updateReplace, hco, hg, hl, hrel, hv, hri2]

theorem mutation_failure_discipline_witness :
    (TreeState.update natCodec noIdxRun 0 stEmpty ⟨3, 0⟩ 5 = (stEmpty, .error .Usage) ∧
      TreeState.remove noIdxRun stEmpty ⟨3, 0⟩ = (stEmpty, .error .Usage)) ∧
    TreeState.update natCodec noIdxRun 0 stUnv ⟨2, 1⟩ 5 = (stUnv, .error .Usage) ∧
    TreeState.update natCodec noIdxRun 0 stPrevMissing ⟨1, 1⟩ 5 =
      (stPrevMissing, .error .Internal) ∧
    TreeState.update natCodec noIdxRun 0 stReleasedRec ⟨2, 0⟩ 5 =
      (stReleasedRec, .error .VersioningMismatch) ∧
    TreeState.remove noIdxRun stReleasedRec ⟨2, 0⟩ = (stReleasedRec, .error .Usage) ∧
    (alookup (TreeState.remove badIdxRun stCheckedOut ⟨2, 0⟩).1.store ⟨2, 0⟩ = none ∧
      (TreeState.remove badIdxRun stCheckedOut ⟨2, 0⟩).2 = .ok (some ())) ∧
    ((TreeState.insert natCodec badIdxRun 0 stBadIdx 5).2 = .error .Index ∧
      (TreeState.insert natCodec badIdxRun 0 stBadIdx 5).1.store = stBadIdx.store ∧
      (TreeState.insert natCodec badIdxRun 0 stBadIdx 5).1.pool =
        some (KeyPool.mk [(6, 10)])) ∧
    TreeState.update natCodec badIdxRun 0 stBadIdx ⟨2, 0⟩ 5 =
      ({ stBadIdx with
          idx := (badIdxRun stBadIdx.idx ⟨2, 0⟩ (natCodec.enc 5) .Update).2 },
        .error .Index) :=
  ⟨(mutation_failure_discipline natCodec noIdxRun 0 stEmpty ⟨3, 0⟩ 5).1 rfl,
    ((mutation_failure_discipline natCodec noIdxRun 0 stUnv ⟨2, 1⟩ 5).2.1 rfl).1
      ⟨rfl, by decide⟩,
    ((mutation_failure_discipline natCodec noIdxRun 0 stPrevMissing ⟨1, 1⟩ 5).2.1
      rfl).2.1 .Internal (by decide) rfl,
    ((mutation_failure_discipline natCodec noIdxRun 0 stReleasedRec ⟨2, 0⟩ 5).2.1
      rfl).2.2.1 _ (by decide) rfl rfl rfl rfl,
    ((mutation_failure_discipline natCodec noIdxRun 0 stReleasedRec ⟨2, 0⟩ 5).2.1
      rfl).2.2.2.1 _ rfl rfl,
    (fun h => ⟨h.1, h.2 rfl⟩)
      (((mutation_failure_discipline natCodec badIdxRun 0 stCheckedOut ⟨2, 0⟩ 5).2.1
        rfl).2.2.2.2 _ rfl rfl),
    (mutation_failure_discipline natCodec badIdxRun 0 stBadIdx ⟨2, 0⟩ 5).2.2.1
      { stBadIdx with pool := some (KeyPool.mk [(6, 10)]) } ⟨5, 0⟩ .Index rfl rfl rfl,
    (mutation_failure_discipline natCodec badIdxRun 0 stBadIdx ⟨2, 0⟩ 5).2.2.2
      rfl rfl _ .Index rfl (by decide) (by decide) rfl⟩

/-- A one-struct collection rooted at `"T"` with a single field `a: u32`. -/
def tcFieldA : TypeCollection := ⟨"T", [("T", .Struct ⟨[⟨"a", "u32"⟩]⟩)]⟩

/-- The same collection with the field renamed to `b`. -/
def tcFieldB : TypeCollection := ⟨"T", [("T", .Struct ⟨[⟨"b", "u32"⟩]⟩)]⟩

/-- A stored descriptor whose only evolution `(0, 0)` carries `tcFieldB`. -/
def descrFieldB : TreeDescriptor := ⟨[(⟨0, 0⟩, tcFieldB)], true⟩

/-- C7 counterexample. Two collections that differ only in a struct field's
name compare unequal (the `simple_ast.rs` equality is derived, so `ident`
takes part), and the typed-tree open path comparing the code's reflected
collection against the stored one rejects exactly such a rename with
`EvolutionMismatch` — even though the separate backwards-compatibility
predicate accepts it. -/
theorem rename_breaks_collection_equality :
    tcEq tcFieldA tcFieldB = false ∧
    is_backwards_compatible tcFieldA tcFieldB = true ∧
    open_descriptor_check (some descrFieldB) true ⟨0, 0⟩ tcFieldA =
      .error .EvolutionMismatch :=
  ⟨rfl, rfl, rfl⟩

/-- C7, amended. Collection equality is full structural equality — root,
referenced descriptors, and field idents all take part — so two collections
differing only in a field name compare unequal (while the separate
backwards-compatibility predicate ignores the rename), and the open path
rejects any reflected collection that is unequal to the stored one at the
code's evolution with `EvolutionMismatch`. -/
theorem collection_equality_includes_names :
    (∀ (d : TreeDescriptor) (versioning : Bool) (evolution : SimpleVersion)
      (current known : TypeCollection), versioning = d.versioning →
      evolution.cmp (maxEvolution d) = .eq →
      alookup d.evolutions evolution = some known → tcEq current known = false →
      open_descriptor_check (some d) versioning evolution current =
        .error .EvolutionMismatch) ∧
    (∀ (root f1 f2 ty : String), f1 ≠ f2 →
      tcEq ⟨root, [(root, .Struct ⟨[⟨f1, ty⟩]⟩)]⟩
          ⟨root, [(root, .Struct ⟨[⟨f2, ty⟩]⟩)]⟩ = false ∧
      is_backwards_compatible ⟨root, [(root, .Struct ⟨[⟨f1, ty⟩]⟩)]⟩
          ⟨root, [(root, .Struct ⟨[⟨f2, ty⟩]⟩)]⟩ = true) := by
  constructor
  · intro d versioning evolution current known hv hmax hk hne
    simp [open_descriptor_check, hv, hmax, hk, hne]
  · intro root f1 f2 ty hne
    constructor
    · simp [tcEq, refsEq, alookup, hne, Ne.symm hne]
    · simp [is_backwards_compatible, alookup, is_enum_fields_compatible]

theorem collection_equality_includes_names_witness :
    open_descriptor_check (some descrFieldB) true ⟨0, 0⟩ tcFieldA =
      .error .EvolutionMismatch ∧
    tcEq tcFieldA tcFieldB = false ∧
    is_backwards_compatible tcFieldA tcFieldB = true :=
  ⟨collection_equality_includes_names.1 descrFieldB true ⟨0, 0⟩ tcFieldA tcFieldB
      rfl rfl rfl rfl,
    (collection_equality_includes_names.2 "T" "a" "b" "u32" (by decide)).1,
    (collection_equality_includes_names.2 "T" "a" "b" "u32" (by decide)).2⟩

end Hills
